import Mathlib

/-!
# Verification of `harness_pipeline_exporter.py`

A shallow embedding of the traversal/pagination logic of the Harness
pipeline exporter, together with proofs about its pagination loops
(`fetch_all_with_pagination`, the inlined loops of `get_projects` and
`get_pipelines`), the three-tier counting logic of `get_pipeline_count`,
the error handling of `make_api_request`, and the per-organization /
per-project traversal loop of `main`.

Modelling conventions:
* JSON values are `Json` below; numbers are restricted to integers (the
  script only ever consumes counts and page totals).
* The HTTP server is an oracle `Server : Nat → Nat → Option Json` mapping
  the `page` and `size` query parameters of a request to the parsed body
  returned by `make_api_request` (`none` = request failed, i.e. the
  Python function returned `None`).  Within one call of a fetch function
  all other parameters (account, org, project identifiers, URL) are
  fixed, so the oracle abstracts them away.
* Python `while` loops become fuel-indexed structural recursion; running
  out of fuel returns what was accumulated so far.  All theorems proved
  below are safety properties that hold for every fuel value.
* Each fetch function also returns the ordered log of requests it
  issued, as `(page, size)` pairs, so that claims about which pages are
  requested can be stated.
* Python's dynamically-typed key tests are embedded for JSON objects:
  `key in d` is key membership when `d` is an object and false otherwise
  (on lists/strings Python's `in` is element/substring membership and
  string-indexing such values raises; responses exercising those corners
  are outside the embedding, as are responses whose item lists or
  `totalPages` values are not of the type the script's later arithmetic
  requires — Python faults on those rather than returning a value).
-/

set_option maxHeartbeats 1000000

namespace HarnessExporter

/-- JSON values as parsed by Python's `response.json()`, with numbers
restricted to integers. -/
inductive Json where
  | null
  | bool (b : Bool)
  | num (n : Int)
  | str (s : String)
  | arr (elems : List Json)
  | obj (fields : List (String × Json))

/-- Python truthiness of a JSON value (`if not x`): `None`, `False`, `0`,
`""`, `[]`, `{}` are falsy, everything else truthy. -/
def Json.truthy : Json → Bool
  | .null => false
  | .bool b => b
  | .num n => n != 0
  | .str s => s != ""
  | .arr elems => !elems.isEmpty
  | .obj fields => !fields.isEmpty

/-- Key lookup `d[key]` on a JSON object; `none` when the key is absent or
the value is not an object. -/
def Json.getKey? : Json → String → Option Json
  | .obj fields, key => fields.lookup key
  | _, _ => none

/-- Python `d.get(key, dflt)`: the stored value when the key is present
(even when that value is `None`), otherwise the default. -/
def Json.getD (j : Json) (key : String) (dflt : Json) : Json :=
  (j.getKey? key).getD dflt

/-- Python `key in d` for a JSON object. -/
def Json.hasKey (j : Json) (key : String) : Bool :=
  (j.getKey? key).isSome

/-- Whether a JSON value is a non-negative integer. -/
def Json.isNonnegNum : Json → Bool
  | .num n => decide (0 ≤ n)
  | _ => false

/-! ## `make_api_request` (lines 68-88)

The function wraps one `requests.get` + `raise_for_status` + `.json()` in
a `try` with four `except` clauses: `HTTPError`, `ConnectionError`,
`Timeout`, `RequestException`, each of which prints and falls through to
`return None`.  We model the outcome of the guarded block as either a
parsed body or a raised exception, drawn from the concrete exception
types the `requests` library raises, and the handler chain by Python's
first-matching-class dispatch over the library's class hierarchy. -/

/-- Exceptions the guarded block (`requests.get` / `raise_for_status` /
`response.json()`) can raise.  `json_decode_error` is
`requests.exceptions.JSONDecodeError`, a `RequestException` subclass. -/
inductive RequestsError where
  | http_error
  | connection_error
  | ssl_error
  | connect_timeout
  | read_timeout
  | too_many_redirects
  | invalid_url
  | json_decode_error

/-- The exception classes named by the script's `except` clauses. -/
inductive ExcClass where
  | HTTPError
  | ConnectionError
  | Timeout
  | RequestException

/-- The `requests.exceptions` class hierarchy: which concrete raised
exception is an instance of which handler class.  `ConnectTimeout`
subclasses both `ConnectionError` and `Timeout`; everything subclasses
`RequestException`. -/
def matchesClass : RequestsError → ExcClass → Bool
  | .http_error, .HTTPError => true
  | .connection_error, .ConnectionError => true
  | .ssl_error, .ConnectionError => true
  | .connect_timeout, .ConnectionError => true
  | .connect_timeout, .Timeout => true
  | .read_timeout, .Timeout => true
  | _, .RequestException => true
  | _, _ => false

/-- The `except` clauses of `make_api_request`, in source order. -/
def handlerChain : List ExcClass :=
  [.HTTPError, .ConnectionError, .Timeout, .RequestException]

/-- Python exception dispatch: the first `except` clause whose class the
raised exception is an instance of. -/
def dispatchHandler (e : RequestsError) : Option ExcClass :=
  handlerChain.find? (matchesClass e)

/-- `make_api_request` (lines 68-88): given the outcome of the guarded
block, return the parsed JSON on success; a caught exception prints and
falls to `return None`; an uncaught exception would propagate
(`Except.error`). -/
def make_api_request (outcome : Except RequestsError Json) :
    Except RequestsError (Option Json) :=
  match outcome with
  | .ok body => .ok (some body)
  | .error e =>
    match dispatchHandler e with
    | some _ => .ok none
    | none => .error e

/-! ## The server oracle and response classification -/

/-- A server oracle: maps the `page` and `size` query parameters to the
parsed response (`none` = the request failed and `make_api_request`
returned `None`). -/
def Server : Type := Nat → Nat → Option Json

/-- Classification of one response for the nested-list branch of the
pagination loops (`data and "data" in data and key_name in data["data"]`,
lines 110-124 / 214-226 / 264-276): returns the item list
`data["data"][key_name]` and the declared `data["data"]["totalPages"]`
(`none` when absent).  Returns `none` when the response is absent, falsy,
lacks the keys, or the item list is not a JSON array. -/
def pageContent (key : String) (resp : Option Json) : Option (List Json × Option Int) :=
  match resp with
  | none => none
  | some r =>
    if r.truthy ∧ r.hasKey "data" then
      match (r.getD "data" .null).getKey? key with
      | some (.arr items) =>
        some (items,
          match (r.getD "data" .null).getKey? "totalPages" with
          | some (.num t) => some t
          | _ => none)
      | _ => none
    else none

/-- Classification of one response for the direct-list branch of
`fetch_all_with_pagination`
(`data and isinstance(data.get("data"), list)`, lines 126-135): the item
list sits directly at `data["data"]` and `totalPages` at top level. -/
def directContent (resp : Option Json) : Option (List Json × Option Int) :=
  match resp with
  | none => none
  | some r =>
    if r.truthy then
      match r.getKey? "data" with
      | some (.arr items) =>
        some (items,
          match r.getKey? "totalPages" with
          | some (.num t) => some t
          | _ => none)
      | _ => none
    else none

/-- The item list a pagination loop with nested shape extracts from one
response; `[]` when the response is malformed. -/
def pageItems (key : String) (resp : Option Json) : List Json :=
  match pageContent key resp with
  | some (items, _) => items
  | none => []

/-- The item list `fetch_all_with_pagination` extracts from one response,
accounting for both branches (nested first, then — only for key
`"data_list_direct"` — the direct-list shape). -/
def pageItemsAll (key : String) (resp : Option Json) : List Json :=
  match pageContent key resp with
  | some (items, _) => items
  | none =>
    if key = "data_list_direct" then
      match directContent resp with
      | some (items, _) => items
      | none => []
    else []

/-- The total-page count a response declares to the pagination loop
(`none` when the response is malformed or declares none). -/
def pageDecl (key : String) (resp : Option Json) : Option Int :=
  match pageContent key resp with
  | some (_, tpDecl) => tpDecl
  | none =>
    if key = "data_list_direct" then
      match directContent resp with
      | some (_, tpDecl) => tpDecl
      | none => none
    else none

/-! ## `fetch_all_with_pagination` (lines 91-145)

The `while page_index < total_pages` loop, as fuel-indexed recursion.
Each iteration requests `(page_index, page_size)`, classifies the
response, breaks on: empty item list beyond page 0; empty first page with
an updated total of 0; a short page (`len(items) < page_size`); or a
malformed response (with a warning).  Otherwise `total_pages` is
refreshed from the response and the loop advances to the next page (the
`page_index >= total_pages` re-check at the loop bottom coincides with
the `while` condition).  Returns the accumulated items and the request
log. -/
def fetchAllLoop (srv : Server) (key : String) (page_size : Nat) :
    Nat → Nat → Int → List Json × List (Nat × Nat)
  | 0, _, _ => ([], [])
  | fuel + 1, page_index, total_pages =>
    if (page_index : Int) < total_pages then
      match pageContent key (srv page_index page_size) with
      | some (items, tpDecl) =>
        if items.isEmpty ∧ 0 < page_index then ([], [(page_index, page_size)])
        else
          let tp' := tpDecl.getD total_pages
          if items.isEmpty ∧ tp' = 0 ∧ page_index = 0 then
            (items, [(page_index, page_size)])
          else if items.length < page_size then (items, [(page_index, page_size)])
          else
            let rest := fetchAllLoop srv key page_size fuel (page_index + 1) tp'
            (items ++ rest.1, (page_index, page_size) :: rest.2)
      | none =>
        if key = "data_list_direct" then
          match directContent (srv page_index page_size) with
          | some (items, tpDecl) =>
            if items.isEmpty ∧ 0 < page_index then ([], [(page_index, page_size)])
            else
              let tp' := tpDecl.getD total_pages
              if items.isEmpty ∧ tp' = 0 ∧ page_index = 0 then
                (items, [(page_index, page_size)])
              else if items.length < page_size then (items, [(page_index, page_size)])
              else
                let rest := fetchAllLoop srv key page_size fuel (page_index + 1) tp'
                (items ++ rest.1, (page_index, page_size) :: rest.2)
          | none => ([], [(page_index, page_size)])
        else ([], [(page_index, page_size)])
    else ([], [])

/-- `fetch_all_with_pagination(url, headers, account_id, key_name,
page_size)`: the loop started at `page_index = 0`, `total_pages = 1`
(lines 96-98). -/
def fetch_all_with_pagination (srv : Server) (key : String) (page_size : Nat)
    (fuel : Nat) : List Json × List (Nat × Nat) :=
  fetchAllLoop srv key page_size fuel 0 1

/-! ## `get_projects` (lines 186-238) and `get_pipelines` (lines 241-288)

Both inline their own copy of the pagination loop, hard-coded to
`page_size = 100` and the nested `data.content` shape, with no
direct-list branch. -/

/-- The inlined pagination loop of `get_projects` (lines 204-234). -/
def getProjectsLoop (srv : Server) :
    Nat → Nat → Int → List Json × List (Nat × Nat)
  | 0, _, _ => ([], [])
  | fuel + 1, page_index, total_pages =>
    if (page_index : Int) < total_pages then
      match pageContent "content" (srv page_index 100) with
      | some (items, tpDecl) =>
        if items.isEmpty ∧ 0 < page_index then ([], [(page_index, 100)])
        else
          let tp' := tpDecl.getD total_pages
          if items.isEmpty ∧ tp' = 0 ∧ page_index = 0 then
            (items, [(page_index, 100)])
          else if items.length < 100 then (items, [(page_index, 100)])
          else
            let rest := getProjectsLoop srv fuel (page_index + 1) tp'
            (items ++ rest.1, (page_index, 100) :: rest.2)
      | none => ([], [(page_index, 100)])
    else ([], [])

/-- `get_projects`: its loop started at `page_index = 0`,
`total_pages = 1` (lines 199-202). -/
def get_projects (srv : Server) (fuel : Nat) : List Json × List (Nat × Nat) :=
  getProjectsLoop srv fuel 0 1

/-- The inlined pagination loop of `get_pipelines` (lines 253-284),
textually the same loop as `get_projects`' (only the URL and query
parameters, abstracted by the oracle, differ). -/
def getPipelinesLoop (srv : Server) :
    Nat → Nat → Int → List Json × List (Nat × Nat)
  | 0, _, _ => ([], [])
  | fuel + 1, page_index, total_pages =>
    if (page_index : Int) < total_pages then
      match pageContent "content" (srv page_index 100) with
      | some (items, tpDecl) =>
        if items.isEmpty ∧ 0 < page_index then ([], [(page_index, 100)])
        else
          let tp' := tpDecl.getD total_pages
          if items.isEmpty ∧ tp' = 0 ∧ page_index = 0 then
            (items, [(page_index, 100)])
          else if items.length < 100 then (items, [(page_index, 100)])
          else
            let rest := getPipelinesLoop srv fuel (page_index + 1) tp'
            (items ++ rest.1, (page_index, 100) :: rest.2)
      | none => ([], [(page_index, 100)])
    else ([], [])

/-- `get_pipelines`: its loop started at `page_index = 0`,
`total_pages = 1` (lines 248-251). -/
def get_pipelines (srv : Server) (fuel : Nat) : List Json × List (Nat × Nat) :=
  getPipelinesLoop srv fuel 0 1

/-! ## `get_pipeline_count` (lines 291-343)

One probe request with `page = 0, size = 1`, then the three-tier logic:
`totalItems` / `totalElements` returned directly; else if a `content`
list is present and `data.get("totalPages", 0) <= 1` its length; else a
full `get_pipelines` fetch and its length; else 0. -/

/-- The `data` object of the size-1 page-0 probe response (`Json.null`
when the request failed or the key is absent). -/
def probeData (srv : Server) : Json :=
  match srv 0 1 with
  | some r => r.getD "data" .null
  | none => .null

/-- `get_pipeline_count` (lines 291-343).  Returns the value the Python
function returns (lengths wrapped as `Json.num`) and the ordered request
log (the probe is `(0, 1)`; the fallback appends `get_pipelines`'
requests). -/
def get_pipeline_count (srv : Server) (fuel : Nat) : Json × List (Nat × Nat) :=
  match srv 0 1 with
  | some r =>
    if r.truthy ∧ r.hasKey "data" then
      let d := r.getD "data" .null
      if d.hasKey "totalItems" then (d.getD "totalItems" .null, [(0, 1)])
      else if d.hasKey "totalElements" then (d.getD "totalElements" .null, [(0, 1)])
      else
        match d.getKey? "content" with
        | some (.arr items) =>
          let total_pages : Int :=
            match d.getKey? "totalPages" with
            | some (.num t) => t
            | _ => 0
          if total_pages ≤ 1 then (.num items.length, [(0, 1)])
          else
            let full := get_pipelines srv fuel
            (.num full.1.length, (0, 1) :: full.2)
        | _ => (.num 0, [(0, 1)])
    else (.num 0, [(0, 1)])
  | none => (.num 0, [(0, 1)])

/-! ## The traversal loop of `main` (lines 360-411)

`main` folds over the organizations returned by `get_organizations`; for
each one with a truthy `organization.identifier` it bumps the processed
count, fetches the projects, and folds over them; each project with a
truthy `project.identifier` bumps the processed count, computes the
pipeline count, and appends one row.  We parameterize over the
organization list and over oracles for `get_projects` and
`get_pipeline_count` (keyed by the identifiers passed to them); the
count is an integer, as `main`'s summation requires. -/

/-- One row of `all_pipeline_data` (lines 401-405). -/
structure Row where
  Project : Json
  Organization : Json
  PipelineCount : Int

/-- The mutable state of `main`'s traversal (lines 360-363). -/
structure RunState where
  all_pipeline_data : List Row
  processed_org_count : Nat
  processed_project_count : Nat
  processed_pipeline_count : Int

/-- `org_data.get("organization", {}).get("identifier")` (line 374). -/
def orgIdentifier (org_data : Json) : Json :=
  (org_data.getD "organization" (.obj [])).getD "identifier" .null

/-- `org_data.get("organization", {}).get("name", org_identifier)`
(line 375). -/
def orgName (org_data : Json) : Json :=
  (org_data.getD "organization" (.obj [])).getD "name" (orgIdentifier org_data)

/-- `project_data.get("project", {}).get("identifier")` (line 389). -/
def projectIdentifier (project_data : Json) : Json :=
  (project_data.getD "project" (.obj [])).getD "identifier" .null

/-- `project_data.get("project", {}).get("name", project_identifier)`
(line 390). -/
def projectName (project_data : Json) : Json :=
  (project_data.getD "project" (.obj []))
    |>.getD "name" (projectIdentifier project_data)

/-- The body of the inner `for project_data in projects` loop
(lines 388-411): skip when the identifier is falsy; otherwise bump the
project count, compute the count, append one row (even when the count is
0) and add the count to the running total. -/
def processProject (get_count : Json → Json → Int) (org_identifier org_name : Json)
    (st : RunState) (project_data : Json) : RunState :=
  let project_identifier := projectIdentifier project_data
  if project_identifier.truthy then
    let project_name := projectName project_data
    let pipeline_count := get_count org_identifier project_identifier
    { all_pipeline_data :=
        st.all_pipeline_data ++ [⟨project_name, org_name, pipeline_count⟩]
      processed_org_count := st.processed_org_count
      processed_project_count := st.processed_project_count + 1
      processed_pipeline_count := st.processed_pipeline_count + pipeline_count }
  else st

/-- The body of the outer `for org_data in organizations` loop
(lines 373-411): skip when the identifier is falsy; otherwise bump the
organization count, fetch the projects (an empty list short-circuits via
`continue`, which coincides with folding over the empty list) and fold
the inner loop over them. -/
def processOrganization (get_projects_for : Json → List Json)
    (get_count : Json → Json → Int) (st : RunState) (org_data : Json) : RunState :=
  let org_identifier := orgIdentifier org_data
  if org_identifier.truthy then
    let st1 := { st with processed_org_count := st.processed_org_count + 1 }
    let projects := get_projects_for org_identifier
    projects.foldl (processProject get_count org_identifier (orgName org_data)) st1
  else st

/-- The whole traversal of `main` (lines 360-411), starting from the
zeroed state of lines 360-363. -/
def mainLoop (organizations : List Json) (get_projects_for : Json → List Json)
    (get_count : Json → Json → Int) : RunState :=
  organizations.foldl (processOrganization get_projects_for get_count) ⟨[], 0, 0, 0⟩

/-! ## Helper lemmas -/

lemma truthy_of_hasKey {j : Json} {k : String} (h : j.hasKey k = true) :
    j.truthy = true := by
  cases j with
  | obj fields =>
    cases fields with
    | nil => simp [Json.hasKey, Json.getKey?, List.lookup] at h
    | cons p rest => simp [Json.truthy]
  | null => simp [Json.hasKey, Json.getKey?] at h
  | bool b => simp [Json.hasKey, Json.getKey?] at h
  | num n => simp [Json.hasKey, Json.getKey?] at h
  | str s => simp [Json.hasKey, Json.getKey?] at h
  | arr es => simp [Json.hasKey, Json.getKey?] at h

lemma content_ne_direct : ("content" : String) ≠ "data_list_direct" := by decide

/-- The two inlined loops are instances of the generic one at key
`"content"`, page size 100. -/
lemma getProjectsLoop_eq_fetchAll (srv : Server) (fuel : Nat) :
    ∀ (page : Nat) (tp : Int),
      getProjectsLoop srv fuel page tp
        = fetchAllLoop srv "content" 100 fuel page tp := by
  induction fuel with
  | zero => intro page tp; rfl
  | succ n ih =>
    intro page tp
    simp only [getProjectsLoop, fetchAllLoop, ih]
    cases hpc : pageContent "content" (srv page 100) with
    | none => simp [content_ne_direct]
    | some pr => rfl

lemma getPipelinesLoop_eq_fetchAll (srv : Server) (fuel : Nat) :
    ∀ (page : Nat) (tp : Int),
      getPipelinesLoop srv fuel page tp
        = fetchAllLoop srv "content" 100 fuel page tp := by
  induction fuel with
  | zero => intro page tp; rfl
  | succ n ih =>
    intro page tp
    simp only [getPipelinesLoop, fetchAllLoop, ih]
    cases hpc : pageContent "content" (srv page 100) with
    | none => simp [content_ne_direct]
    | some pr => rfl

/-- The request log either is empty or starts with the page the loop was
entered at. -/
lemma fetchAllLoop_shape (srv : Server) (key : String) (ps fuel page : Nat)
    (tp : Int) :
    (fetchAllLoop srv key ps fuel page tp).2 = []
      ∨ ∃ rest, (fetchAllLoop srv key ps fuel page tp).2 = (page, ps) :: rest := by
  cases fuel with
  | zero => left; rfl
  | succ n =>
    simp only [fetchAllLoop]
    repeat' split
    all_goals first
      | (left; rfl)
      | (right; exact ⟨_, rfl⟩)

/-- A loop entered with `¬ page < tp` issues no request. -/
lemma fetchAllLoop_stopped (srv : Server) (key : String) (ps fuel page : Nat)
    (tp : Int) (h : ¬ ((page : Int) < tp)) :
    fetchAllLoop srv key ps fuel page tp = ([], []) := by
  cases fuel with
  | zero => rfl
  | succ n => simp only [fetchAllLoop, if_neg h]

lemma fetchAllLoop_entered (srv : Server) (key : String) (ps fuel page : Nat)
    (tp : Int) (h : (fetchAllLoop srv key ps fuel page tp).2 ≠ []) :
    (page : Int) < tp := by
  by_contra hlt
  rw [fetchAllLoop_stopped srv key ps fuel page tp hlt] at h
  exact h rfl

/-- The items a pagination loop returns are the ordered concatenation of
the item lists extracted from the responses of the pages it requested. -/
lemma fetchAllLoop_concat (srv : Server) (key : String) (ps fuel : Nat) :
    ∀ (page : Nat) (tp : Int),
      (fetchAllLoop srv key ps fuel page tp).1
        = ((fetchAllLoop srv key ps fuel page tp).2.map
            (fun pr => pageItemsAll key (srv pr.1 pr.2))).flatten := by
  induction fuel with
  | zero => intro page tp; rfl
  | succ n ih =>
    intro page tp
    by_cases hlt : (page : Int) < tp
    · simp only [fetchAllLoop, if_pos hlt]
      cases hpc : pageContent key (srv page ps) with
      | some prc =>
        obtain ⟨items, tpDecl⟩ := prc
        have hitems : pageItemsAll key (srv page ps) = items := by
          simp [pageItemsAll, hpc]
        dsimp only
        split
        · rename_i hcond
          simp [hitems, List.isEmpty_iff.mp hcond.1]
        · split
          · simp [hitems]
          · split
            · simp [hitems]
            · simp [hitems, ih]
      | none =>
        by_cases hkey : key = "data_list_direct"
        · subst hkey
          rw [if_pos rfl]
          cases hdc : directContent (srv page ps) with
          | some prc =>
            obtain ⟨items, tpDecl⟩ := prc
            have hitems : pageItemsAll "data_list_direct" (srv page ps) = items := by
              simp [pageItemsAll, hpc, hdc]
            dsimp only
            split
            · rename_i hcond
              simp [hitems, List.isEmpty_iff.mp hcond.1]
            · split
              · simp [hitems]
              · split
                · simp [hitems]
                · simp [hitems, ih]
          | none =>
            have hitems : pageItemsAll "data_list_direct" (srv page ps) = [] := by
              simp [pageItemsAll, hpc, hdc]
            simp [hitems]
        · rw [if_neg hkey]
          have hitems : pageItemsAll key (srv page ps) = [] := by
            simp [pageItemsAll, hpc, hkey]
          simp [hitems]
    · rw [fetchAllLoop_stopped srv key ps (n+1) page tp hlt]
      rfl

/-- The returned item count is the sum of the per-page item counts over
the requests issued. -/
lemma fetchAllLoop_length (srv : Server) (key : String) (ps fuel page : Nat)
    (tp : Int) :
    (fetchAllLoop srv key ps fuel page tp).1.length
      = ((fetchAllLoop srv key ps fuel page tp).2.map
          (fun pr => (pageItemsAll key (srv pr.1 pr.2)).length)).sum := by
  rw [fetchAllLoop_concat, List.length_flatten, List.map_map]
  rfl

/-- The pages requested are consecutive, starting at the entry page. -/
lemma fetchAllLoop_pages (srv : Server) (key : String) (ps fuel : Nat) :
    ∀ (page : Nat) (tp : Int),
      (fetchAllLoop srv key ps fuel page tp).2.map Prod.fst
        = List.range' page (fetchAllLoop srv key ps fuel page tp).2.length := by
  induction fuel with
  | zero => intro page tp; rfl
  | succ n ih =>
    intro page tp
    by_cases hlt : (page : Int) < tp
    · simp only [fetchAllLoop, if_pos hlt]
      cases hpc : pageContent key (srv page ps) with
      | some prc =>
        obtain ⟨items, tpDecl⟩ := prc
        dsimp only
        split
        · simp [List.range']
        · split
          · simp [List.range']
          · split
            · simp [List.range']
            · simp [ih, List.range'_succ]
      | none =>
        by_cases hkey : key = "data_list_direct"
        · subst hkey
          rw [if_pos rfl]
          cases hdc : directContent (srv page ps) with
          | some prc =>
            obtain ⟨items, tpDecl⟩ := prc
            dsimp only
            split
            · simp [List.range']
            · split
              · simp [List.range']
              · split
                · simp [List.range']
                · simp [ih, List.range'_succ]
          | none => simp [List.range']
        · rw [if_neg hkey]
          simp [List.range']
    · rw [fetchAllLoop_stopped srv key ps (n+1) page tp hlt]
      rfl

lemma eq_singleton_append {α : Type _} (a : α) (pre post : List α) (pr : α)
    (h : [a] = pre ++ pr :: post) : post = [] := by
  cases pre with
  | nil =>
    simp only [List.nil_append, List.cons.injEq] at h
    exact h.2.symm
  | cons q pre' =>
    simp only [List.cons_append, List.cons.injEq] at h
    exact absurd h.2.symm (by simp)

/-- Once a page yields fewer items than the page size, no further page is
requested: any such page is the last entry of the request log. -/
lemma fetchAllLoop_short_last (srv : Server) (key : String) (ps fuel : Nat) :
    ∀ (page : Nat) (tp : Int) (pre : List (Nat × Nat)) (pr : Nat × Nat)
      (post : List (Nat × Nat)),
      (fetchAllLoop srv key ps fuel page tp).2 = pre ++ pr :: post →
      (pageItemsAll key (srv pr.1 pr.2)).length < ps →
      post = [] := by
  induction fuel with
  | zero =>
    intro page tp pre pr post h _
    simp [fetchAllLoop] at h
  | succ n ih =>
    intro page tp pre pr post h hshort
    by_cases hlt : (page : Int) < tp
    · simp only [fetchAllLoop, if_pos hlt] at h
      cases hpc : pageContent key (srv page ps) with
      | some prc =>
        obtain ⟨items, tpDecl⟩ := prc
        have hitems : pageItemsAll key (srv page ps) = items := by
          simp [pageItemsAll, hpc]
        rw [hpc] at h
        dsimp only at h
        split at h
        · exact eq_singleton_append _ _ _ _ h
        · split at h
          · exact eq_singleton_append _ _ _ _ h
          · split at h
            · exact eq_singleton_append _ _ _ _ h
            · rename_i hc1 hc2 hc3
              cases pre with
              | nil =>
                simp only [List.nil_append, List.cons.injEq] at h
                obtain ⟨hpr, hpost⟩ := h
                rw [← hpr] at hshort
                dsimp only at hshort
                rw [hitems] at hshort
                exact absurd hshort hc3
              | cons q pre' =>
                simp only [List.cons_append, List.cons.injEq] at h
                exact ih (page+1) _ pre' pr post h.2 hshort
      | none =>
        rw [hpc] at h
        dsimp only at h
        by_cases hkey : key = "data_list_direct"
        · subst hkey
          rw [if_pos rfl] at h
          cases hdc : directContent (srv page ps) with
          | some prc =>
            obtain ⟨items, tpDecl⟩ := prc
            have hitems : pageItemsAll "data_list_direct" (srv page ps) = items := by
              simp [pageItemsAll, hpc, hdc]
            rw [hdc] at h
            dsimp only at h
            split at h
            · exact eq_singleton_append _ _ _ _ h
            · split at h
              · exact eq_singleton_append _ _ _ _ h
              · split at h
                · exact eq_singleton_append _ _ _ _ h
                · rename_i hc1 hc2 hc3
                  cases pre with
                  | nil =>
                    simp only [List.nil_append, List.cons.injEq] at h
                    obtain ⟨hpr, hpost⟩ := h
                    rw [← hpr] at hshort
                    dsimp only at hshort
                    rw [hitems] at hshort
                    exact absurd hshort hc3
                  | cons q pre' =>
                    simp only [List.cons_append, List.cons.injEq] at h
                    exact ih (page+1) _ pre' pr post h.2 hshort
          | none =>
            rw [hdc] at h
            dsimp only at h
            exact eq_singleton_append _ _ _ _ h
        · rw [if_neg hkey] at h
          exact eq_singleton_append _ _ _ _ h
    · rw [fetchAllLoop_stopped srv key ps (n+1) page tp hlt] at h
      simp at h

/-- Adjacent requests: whenever the response to one request declares a
total-page count, the next request's page index is strictly below it. -/
lemma fetchAllLoop_chain (srv : Server) (key : String) (ps fuel : Nat) :
    ∀ (page : Nat) (tp : Int),
      List.Chain'
        (fun a b => ∀ t, pageDecl key (srv a.1 a.2) = some t → ((b.1 : Nat) : Int) < t)
        (fetchAllLoop srv key ps fuel page tp).2 := by
  induction fuel with
  | zero => intro page tp; simp [fetchAllLoop]
  | succ n ih =>
    intro page tp
    by_cases hlt : (page : Int) < tp
    · simp only [fetchAllLoop, if_pos hlt]
      cases hpc : pageContent key (srv page ps) with
      | some prc =>
        obtain ⟨items, tpDecl⟩ := prc
        have hdecl : pageDecl key (srv page ps) = tpDecl := by
          simp [pageDecl, hpc]
        dsimp only
        split
        · simp
        · split
          · simp
          · split
            · simp
            · rw [List.chain'_cons']
              refine ⟨?_, ih (page+1) _⟩
              intro y hy t ht
              rcases fetchAllLoop_shape srv key ps n (page+1) (tpDecl.getD tp)
                with hsh | ⟨rest', hsh⟩
              · rw [hsh] at hy; simp at hy
              · rw [hsh] at hy
                simp only [List.head?_cons, Option.mem_def, Option.some.injEq] at hy
                have hne : (fetchAllLoop srv key ps n (page+1) (tpDecl.getD tp)).2 ≠ [] := by
                  rw [hsh]; simp
                have hlt' := fetchAllLoop_entered srv key ps n (page+1) _ hne
                dsimp only at ht
                rw [hdecl] at ht
                rw [ht] at hlt'
                rw [← hy]
                simpa using hlt'
      | none =>
        by_cases hkey : key = "data_list_direct"
        · subst hkey
          rw [if_pos rfl]
          cases hdc : directContent (srv page ps) with
          | some prc =>
            obtain ⟨items, tpDecl⟩ := prc
            have hdecl : pageDecl "data_list_direct" (srv page ps) = tpDecl := by
              simp [pageDecl, hpc, hdc]
            dsimp only
            split
            · simp
            · split
              · simp
              · split
                · simp
                · rw [List.chain'_cons']
                  refine ⟨?_, ih (page+1) _⟩
                  intro y hy t ht
                  rcases fetchAllLoop_shape srv "data_list_direct" ps n (page+1) (tpDecl.getD tp)
                    with hsh | ⟨rest', hsh⟩
                  · rw [hsh] at hy; simp at hy
                  · rw [hsh] at hy
                    simp only [List.head?_cons, Option.mem_def, Option.some.injEq] at hy
                    have hne : (fetchAllLoop srv "data_list_direct" ps n (page+1) (tpDecl.getD tp)).2 ≠ [] := by
                      rw [hsh]; simp
                    have hlt' := fetchAllLoop_entered srv "data_list_direct" ps n (page+1) _ hne
                    dsimp only at ht
                    rw [hdecl] at ht
                    rw [ht] at hlt'
                    rw [← hy]
                    simpa using hlt'
          | none => simp
        · rw [if_neg hkey]
          simp
    · rw [fetchAllLoop_stopped srv key ps (n+1) page tp hlt]
      simp

lemma get_projects_eq_fetchAll (srv : Server) (fuel : Nat) :
    get_projects srv fuel = fetchAllLoop srv "content" 100 fuel 0 1 :=
  getProjectsLoop_eq_fetchAll srv fuel 0 1

lemma get_pipelines_eq_fetchAll (srv : Server) (fuel : Nat) :
    get_pipelines srv fuel = fetchAllLoop srv "content" 100 fuel 0 1 :=
  getPipelinesLoop_eq_fetchAll srv fuel 0 1

/-- At key `"content"` the direct-list branch is dead, so the two item
extractors agree. -/
lemma pageItemsAll_content (resp : Option Json) :
    pageItemsAll "content" resp = pageItems "content" resp := by
  unfold pageItemsAll pageItems
  cases pageContent "content" resp with
  | some pr => rfl
  | none => simp [content_ne_direct]

lemma isNonnegNum_natCast (n : Nat) : (Json.num (n : Int)).isNonnegNum = true :=
  decide_eq_true (Int.natCast_nonneg n)

/-! ## Traversal helpers -/

lemma processProject_skip (gc : Json → Json → Int) (oid oname : Json)
    (st : RunState) (pd : Json) (h : (projectIdentifier pd).truthy = false) :
    processProject gc oid oname st pd = st := by
  simp [processProject, h]

lemma processOrganization_skip (gp : Json → List Json) (gc : Json → Json → Int)
    (st : RunState) (od : Json) (h : (orgIdentifier od).truthy = false) :
    processOrganization gp gc st od = st := by
  simp [processOrganization, h]

lemma processProject_preserves (gc : Json → Json → Int) (oid oname : Json)
    (st : RunState) (pd : Json)
    (h : st.all_pipeline_data.length = st.processed_project_count) :
    (processProject gc oid oname st pd).all_pipeline_data.length
      = (processProject gc oid oname st pd).processed_project_count := by
  unfold processProject
  dsimp only
  split <;> simp [h]

lemma foldl_processProject_preserves (gc : Json → Json → Int) (oid oname : Json) :
    ∀ (projs : List Json) (st : RunState),
      st.all_pipeline_data.length = st.processed_project_count →
      (projs.foldl (processProject gc oid oname) st).all_pipeline_data.length
        = (projs.foldl (processProject gc oid oname) st).processed_project_count := by
  intro projs
  induction projs with
  | nil => intro st h; exact h
  | cons p rest ih =>
    intro st h
    exact ih _ (processProject_preserves gc oid oname st p h)

lemma processOrganization_preserves (gp : Json → List Json) (gc : Json → Json → Int)
    (st : RunState) (od : Json)
    (h : st.all_pipeline_data.length = st.processed_project_count) :
    (processOrganization gp gc st od).all_pipeline_data.length
      = (processOrganization gp gc st od).processed_project_count := by
  unfold processOrganization
  dsimp only
  split
  · exact foldl_processProject_preserves gc _ _ _ _ (by simpa using h)
  · exact h

lemma foldl_processOrganization_preserves (gp : Json → List Json)
    (gc : Json → Json → Int) :
    ∀ (orgs : List Json) (st : RunState),
      st.all_pipeline_data.length = st.processed_project_count →
      (orgs.foldl (processOrganization gp gc) st).all_pipeline_data.length
        = (orgs.foldl (processOrganization gp gc) st).processed_project_count := by
  intro orgs
  induction orgs with
  | nil => intro st h; exact h
  | cons o rest ih =>
    intro st h
    exact ih _ (processOrganization_preserves gp gc st o h)

lemma getD_of_getKey? {j : Json} {k : String} {v : Json}
    (h : j.getKey? k = some v) (dflt : Json) : j.getD k dflt = v := by
  unfold Json.getD
  rw [h]
  rfl

/-! ## Claims -/

/-- C1: for every response to the size-1 page-0 probe whose `data` object
contains a `totalItems` field (or, when `totalItems` is absent, a
`totalElements` field), `get_pipeline_count` returns that field's value
directly and issues no request beyond the probe, regardless of the length
of any `content` list in the response. -/
theorem get_pipeline_count_returns_total_metadata (srv : Server) (fuel : Nat)
    (r : Json) (hresp : srv 0 1 = some r) (hdata : r.hasKey "data" = true)
    (htot : (r.getD "data" .null).hasKey "totalItems" = true
          ∨ ((r.getD "data" .null).hasKey "totalItems" = false
             ∧ (r.getD "data" .null).hasKey "totalElements" = true)) :
    get_pipeline_count srv fuel
      = ((r.getD "data" .null).getD
          (if (r.getD "data" .null).hasKey "totalItems" then "totalItems"
           else "totalElements") .null, [(0, 1)]) := by
  have htr : r.truthy = true := truthy_of_hasKey hdata
  unfold get_pipeline_count
  rw [hresp]
  dsimp only
  rw [if_pos ⟨htr, hdata⟩]
  rcases htot with h1 | ⟨h1, h2⟩
  · rw [if_pos h1, if_pos h1]
  · rw [if_neg (by simp [h1]), if_pos h2, if_neg (by simp [h1])]

/-- Concrete probe for the C1 witness: `totalItems = 42` alongside a
1-element content list. -/
def c1Server : Server := fun _ _ =>
  some (.obj [("data", .obj [("totalItems", .num 42), ("content", .arr [.null])])])

theorem get_pipeline_count_returns_total_metadata_witness :
    get_pipeline_count c1Server 3 = (Json.num 42, [(0, 1)]) :=
  get_pipeline_count_returns_total_metadata c1Server 3 _ rfl rfl (Or.inl rfl)

/-- C2: for every probe response with neither `totalItems` nor
`totalElements` but with a `content` list, if the declared total-page
count is at most 1 then `get_pipeline_count` returns the length of that
list without issuing a second request. -/
theorem get_pipeline_count_single_page (srv : Server) (fuel : Nat) (r : Json)
    (hresp : srv 0 1 = some r) (hdata : r.hasKey "data" = true)
    (hnoti : (r.getD "data" .null).hasKey "totalItems" = false)
    (hnote : (r.getD "data" .null).hasKey "totalElements" = false)
    (items : List Json)
    (hcontent : (r.getD "data" .null).getKey? "content" = some (.arr items))
    (t : Int) (htp : (r.getD "data" .null).getKey? "totalPages" = some (.num t))
    (hle : t ≤ 1) :
    get_pipeline_count srv fuel = (.num items.length, [(0, 1)]) := by
  have htr : r.truthy = true := truthy_of_hasKey hdata
  unfold get_pipeline_count
  rw [hresp]
  dsimp only
  rw [if_pos ⟨htr, hdata⟩, if_neg (by simp [hnoti]), if_neg (by simp [hnote]),
      hcontent]
  dsimp only
  rw [htp]
  dsimp only
  rw [if_pos hle]

/-- Concrete probe for the C2 witness: one item on the only page. -/
def c2Server : Server := fun _ _ =>
  some (.obj [("data", .obj [("content", .arr [.obj []]), ("totalPages", .num 1)])])

theorem get_pipeline_count_single_page_witness :
    get_pipeline_count c2Server 3 = (Json.num 1, [(0, 1)]) :=
  get_pipeline_count_single_page c2Server 3 _ rfl rfl rfl rfl _ rfl 1 rfl
    (by decide)

/-- C3: for every probe response with neither `totalItems` nor
`totalElements`, with a `content` list, and declaring a total-page count
greater than 1, `get_pipeline_count` falls back to a full paginated
`get_pipelines` fetch and returns the length of its result, which equals
the summed item count across all pages that fetch returned. -/
theorem get_pipeline_count_fallback_full_fetch (srv : Server) (fuel : Nat)
    (r : Json) (hresp : srv 0 1 = some r) (hdata : r.hasKey "data" = true)
    (hnoti : (r.getD "data" .null).hasKey "totalItems" = false)
    (hnote : (r.getD "data" .null).hasKey "totalElements" = false)
    (items : List Json)
    (hcontent : (r.getD "data" .null).getKey? "content" = some (.arr items))
    (t : Int) (htp : (r.getD "data" .null).getKey? "totalPages" = some (.num t))
    (hgt : 1 < t) :
    get_pipeline_count srv fuel
        = (.num (get_pipelines srv fuel).1.length,
           (0, 1) :: (get_pipelines srv fuel).2)
      ∧ (get_pipelines srv fuel).1.length
          = ((get_pipelines srv fuel).2.map
              (fun pr => (pageItems "content" (srv pr.1 pr.2)).length)).sum := by
  constructor
  · have htr : r.truthy = true := truthy_of_hasKey hdata
    unfold get_pipeline_count
    rw [hresp]
    dsimp only
    rw [if_pos ⟨htr, hdata⟩, if_neg (by simp [hnoti]), if_neg (by simp [hnote]),
        hcontent]
    dsimp only
    rw [htp]
    dsimp only
    rw [if_neg (by omega)]
  · rw [get_pipelines_eq_fetchAll, fetchAllLoop_length]
    simp [pageItemsAll_content]

/-- Concrete server for the C3 witness: the probe declares 3 pages with no
total metadata; the full fetch returns 100 + 100 + 3 items. -/
def c3Server : Server := fun page size =>
  if size = 1 then
    some (.obj [("data", .obj [("content", .arr [.null]), ("totalPages", .num 3)])])
  else if page = 0 ∨ page = 1 then
    some (.obj [("data", .obj [("content", .arr (List.replicate 100 .null)),
                               ("totalPages", .num 3)])])
  else
    some (.obj [("data", .obj [("content", .arr [.null, .null, .null])])])

theorem get_pipeline_count_fallback_full_fetch_witness :
    get_pipeline_count c3Server 9
        = (Json.num 203, [(0, 1), (0, 100), (1, 100), (2, 100)])
      ∧ (203 : Nat) = ([100, 100, 3] : List Nat).sum := by
  have h := get_pipeline_count_fallback_full_fetch c3Server 9 _ rfl rfl rfl rfl
    _ rfl 3 rfl (by decide)
  exact h

/-- C4: a paginated fetch returns the ordered concatenation of the item
lists of the pages it requested, its result length equals the sum of the
per-page item counts, and once a page yields fewer items than the page
size (100) no later page is requested. -/
theorem fetch_all_concat_sum_short_stop (srv : Server) (key : String)
    (fuel : Nat) :
    (fetch_all_with_pagination srv key 100 fuel).1
        = ((fetch_all_with_pagination srv key 100 fuel).2.map
            (fun pr => pageItemsAll key (srv pr.1 pr.2))).flatten
      ∧ (fetch_all_with_pagination srv key 100 fuel).1.length
          = ((fetch_all_with_pagination srv key 100 fuel).2.map
              (fun pr => (pageItemsAll key (srv pr.1 pr.2)).length)).sum
      ∧ ∀ (pre : List (Nat × Nat)) (pr : Nat × Nat) (post : List (Nat × Nat)),
          (fetch_all_with_pagination srv key 100 fuel).2 = pre ++ pr :: post →
          (pageItemsAll key (srv pr.1 pr.2)).length < 100 →
          post = [] :=
  ⟨fetchAllLoop_concat srv key 100 fuel 0 1,
   fetchAllLoop_length srv key 100 fuel 0 1,
   fun pre pr post h hs =>
     fetchAllLoop_short_last srv key 100 fuel 0 1 pre pr post h hs⟩

/-- Concrete server for the C4 witness: a full page 0 (declaring 5 total
pages) followed by a short page 1. -/
def c4Server : Server := fun page _ =>
  if page = 0 then
    some (.obj [("data", .obj [("content", .arr (List.replicate 100 .null)),
                               ("totalPages", .num 5)])])
  else
    some (.obj [("data", .obj [("content", .arr [.null, .null])])])

theorem fetch_all_concat_sum_short_stop_witness :
    (fetch_all_with_pagination c4Server "content" 100 9).1
        = ((fetch_all_with_pagination c4Server "content" 100 9).2.map
            (fun pr => pageItemsAll "content" (c4Server pr.1 pr.2))).flatten
      ∧ (fetch_all_with_pagination c4Server "content" 100 9).2
          = [(0, 100)] ++ (1, 100) :: []
      ∧ (pageItemsAll "content" (c4Server 1 100)).length < 100
      ∧ ([] : List (Nat × Nat)) = [] := by
  refine ⟨(fetch_all_concat_sum_short_stop c4Server "content" 9).1, rfl,
    by decide, ?_⟩
  exact (fetch_all_concat_sum_short_stop c4Server "content" 9).2.2
    [(0, 100)] (1, 100) [] rfl (by decide)

/-- C5: during a paginated pipelines fetch, each zero-based page index is
requested at most once, and whenever a response declares a total-page
count, the next request's page index is strictly below it (so no request
ever names a page at or beyond the total declared by the most recent
response). -/
theorem get_pipelines_pages_nodup_bounded (srv : Server) (fuel : Nat) :
    ((get_pipelines srv fuel).2.map Prod.fst).Nodup
      ∧ List.Chain'
          (fun a b => ∀ t, pageDecl "content" (srv a.1 a.2) = some t
            → ((b.1 : Nat) : Int) < t)
          (get_pipelines srv fuel).2 := by
  constructor
  · rw [get_pipelines_eq_fetchAll, fetchAllLoop_pages]
    exact List.nodup_range' _ _
  · rw [get_pipelines_eq_fetchAll]
    exact fetchAllLoop_chain srv "content" 100 fuel 0 1

/-- Concrete server for the C5 witness: page 0 is full and declares 2
pages, page 1 is short. -/
def c5Server : Server := fun page _ =>
  if page = 0 then
    some (.obj [("data", .obj [("content", .arr (List.replicate 100 .null)),
                               ("totalPages", .num 2)])])
  else
    some (.obj [("data", .obj [("content", .arr [.null])])])

theorem get_pipelines_pages_nodup_bounded_witness : ((1 : Nat) : Int) < 2 :=
  (List.chain'_cons'.mp
      (get_pipelines_pages_nodup_bounded c5Server 9).2).1 (1, 100) rfl 2 rfl

/-- C6: an organization or project entry whose identifier is missing (or
otherwise falsy) contributes no row, does not increment the processed
counters, and contributes nothing to the pipeline total: processing it
leaves the traversal state unchanged, and a run with such an organization
inserted anywhere equals the run without it. -/
theorem traversal_skips_missing_identifier (gp : Json → List Json)
    (gc : Json → Json → Int) :
    (∀ (st : RunState) (od : Json), (orgIdentifier od).truthy = false →
        processOrganization gp gc st od = st)
      ∧ (∀ (oid oname : Json) (st : RunState) (pd : Json),
          (projectIdentifier pd).truthy = false →
          processProject gc oid oname st pd = st)
      ∧ (∀ (orgs₁ orgs₂ : List Json) (od : Json),
          (orgIdentifier od).truthy = false →
          mainLoop (orgs₁ ++ od :: orgs₂) gp gc
            = mainLoop (orgs₁ ++ orgs₂) gp gc) := by
  refine ⟨fun st od h => processOrganization_skip gp gc st od h,
    fun oid oname st pd h => processProject_skip gc oid oname st pd h,
    fun orgs₁ orgs₂ od h => ?_⟩
  unfold mainLoop
  rw [List.foldl_append, List.foldl_append, List.foldl_cons,
      processOrganization_skip gp gc _ od h]

/-- An organization entry with no identifier, for the C6 witness. -/
def c6Org : Json := .obj [("organization", .obj [("name", .str "NoId")])]

theorem traversal_skips_missing_identifier_witness :
    processOrganization (fun _ => []) (fun _ _ => 0) ⟨[], 0, 0, 0⟩ c6Org
        = ⟨[], 0, 0, 0⟩
      ∧ mainLoop [c6Org] (fun _ => []) (fun _ _ => 0)
          = mainLoop [] (fun _ => []) (fun _ _ => 0) :=
  ⟨(traversal_skips_missing_identifier (fun _ => []) (fun _ _ => 0)).1
      ⟨[], 0, 0, 0⟩ c6Org rfl,
   (traversal_skips_missing_identifier (fun _ => []) (fun _ _ => 0)).2.2
      [] [] c6Org rfl⟩

/-- C7: every project entry with an identifier that the traversal
processes appends exactly one row — carrying the project's name, its
organization's name and the computed count — including when the count is
0; consequently a full run emits exactly one row per processed project. -/
theorem traversal_one_row_per_project (gp : Json → List Json)
    (gc : Json → Json → Int) :
    (∀ (oid oname : Json) (st : RunState) (pd : Json),
        (projectIdentifier pd).truthy = true →
        processProject gc oid oname st pd
          = { all_pipeline_data := st.all_pipeline_data
                ++ [⟨projectName pd, oname, gc oid (projectIdentifier pd)⟩]
              processed_org_count := st.processed_org_count
              processed_project_count := st.processed_project_count + 1
              processed_pipeline_count :=
                st.processed_pipeline_count + gc oid (projectIdentifier pd) })
      ∧ ∀ (orgs : List Json),
          (mainLoop orgs gp gc).all_pipeline_data.length
            = (mainLoop orgs gp gc).processed_project_count := by
  constructor
  · intro oid oname st pd h
    unfold processProject
    dsimp only
    rw [if_pos h]
  · intro orgs
    unfold mainLoop
    exact foldl_processOrganization_preserves gp gc orgs ⟨[], 0, 0, 0⟩ rfl

/-- A project entry with an identifier, for the C7 witness. -/
def c7Proj : Json :=
  .obj [("project", .obj [("identifier", .str "p1"), ("name", .str "Proj One")])]

theorem traversal_one_row_per_project_witness :
    processProject (fun _ _ => 0) (Json.str "o") (Json.str "Org")
        ⟨[], 0, 0, 0⟩ c7Proj
      = ⟨[⟨Json.str "Proj One", Json.str "Org", 0⟩], 0, 1, 0⟩ :=
  (traversal_one_row_per_project (fun _ => []) (fun _ _ => 0)).1
    (Json.str "o") (Json.str "Org") ⟨[], 0, 0, 0⟩ c7Proj rfl

/-- C8: `make_api_request` never propagates an exception to its caller:
every outcome of the guarded GET is either a success, whose parsed body
is returned, or a raised `requests` exception, which is caught by one of
the four handler clauses (each prints a message) so that the function
returns `None`. -/
theorem make_api_request_never_raises (outcome : Except RequestsError Json) :
    make_api_request outcome
      = .ok (match outcome with | .ok body => some body | .error _ => none) := by
  cases outcome with
  | ok body => rfl
  | error e => cases e <;> rfl

/-- C9 counterexample: a server whose probe reports `totalItems = -1`
makes `get_pipeline_count` return `-1`, which is not a non-negative
integer — refuting the claim that the count is always ≥ 0. -/
def c9BadServer : Server := fun _ _ =>
  some (.obj [("data", .obj [("totalItems", .num (-1))])])

theorem get_pipeline_count_negative_counterexample :
    (get_pipeline_count c9BadServer 1).1 = Json.num (-1)
      ∧ Json.isNonnegNum (get_pipeline_count c9BadServer 1).1 = false :=
  ⟨rfl, rfl⟩

/-- C9 (amended): the count `get_pipeline_count` returns is a
non-negative integer provided the probe's `totalItems` / `totalElements`
metadata, when present, is itself a non-negative integer; the counts
produced by the content-length, full-fetch and default paths are
non-negative unconditionally. -/
theorem get_pipeline_count_nonneg_amended (srv : Server) (fuel : Nat)
    (h1 : ((probeData srv).getD "totalItems" (.num 0)).isNonnegNum = true)
    (h2 : ((probeData srv).getD "totalElements" (.num 0)).isNonnegNum = true) :
    ((get_pipeline_count srv fuel).1).isNonnegNum = true := by
  unfold get_pipeline_count
  cases hresp : srv 0 1 with
  | none => rfl
  | some r =>
    have hpd : probeData srv = r.getD "data" .null := by
      unfold probeData; rw [hresp]
    rw [hpd] at h1 h2
    dsimp only
    by_cases hc : r.truthy = true ∧ r.hasKey "data" = true
    · rw [if_pos hc]
      by_cases hti : (r.getD "data" .null).hasKey "totalItems" = true
      · rw [if_pos hti]
        unfold Json.hasKey at hti
        obtain ⟨v, hv⟩ := Option.isSome_iff_exists.mp hti
        dsimp only
        rw [getD_of_getKey? hv Json.null]
        rw [getD_of_getKey? hv (Json.num 0)] at h1
        exact h1
      · rw [if_neg hti]
        by_cases hte : (r.getD "data" .null).hasKey "totalElements" = true
        · rw [if_pos hte]
          unfold Json.hasKey at hte
          obtain ⟨v, hv⟩ := Option.isSome_iff_exists.mp hte
          dsimp only
          rw [getD_of_getKey? hv Json.null]
          rw [getD_of_getKey? hv (Json.num 0)] at h2
          exact h2
        · rw [if_neg hte]
          cases hco : (r.getD "data" .null).getKey? "content" with
          | none => rfl
          | some v =>
            cases v with
            | arr items =>
              dsimp only
              split
              · exact isNonnegNum_natCast items.length
              · exact isNonnegNum_natCast (get_pipelines srv fuel).1.length
            | null => rfl
            | bool b => rfl
            | num n => rfl
            | str s => rfl
            | obj fs => rfl
    · rw [if_neg hc]
      rfl

/-- A server with well-typed metadata, for the C9 witness. -/
def c9OkServer : Server := fun _ _ =>
  some (.obj [("data", .obj [("totalItems", .num 7)])])

theorem get_pipeline_count_nonneg_amended_witness :
    ((get_pipeline_count c9OkServer 1).1).isNonnegNum = true :=
  get_pipeline_count_nonneg_amended c9OkServer 1 rfl rfl

/-- C10: the inlined pagination loops of `get_projects` and
`get_pipelines` compute exactly what the generic
`fetch_all_with_pagination` computes when invoked with key name
`"content"` and page size 100 against the same responses: same item
sequence and same request sequence. -/
theorem inline_loops_equal_generic (srv : Server) (fuel : Nat) :
    get_projects srv fuel = fetch_all_with_pagination srv "content" 100 fuel
      ∧ get_pipelines srv fuel
          = fetch_all_with_pagination srv "content" 100 fuel :=
  ⟨getProjectsLoop_eq_fetchAll srv fuel 0 1,
   getPipelinesLoop_eq_fetchAll srv fuel 0 1⟩

end HarnessExporter
